import Mathlib

/-
Verification of the BitBake metadata-parsing dependency-tracking subsystem
(`lib/bb/parse/__init__.py`) and the S3 fetcher's error mapping
(`lib/bb/fetch2/s3.py`), as a shallow embedding in Lean 4.

Modelling conventions:
* The filesystem is a function `FS : String → Option Fingerprint`; `none`
  means `os.stat` raises `OSError` (the path cannot be stat'd).  Only plain
  files are modelled, so `os.path.exists`/`os.path.isfile` both correspond
  to `(fs p).isSome`.
* The process-wide `__mtime_cache` dict is an association list threaded
  explicitly through each operation; Python dict assignment is `Cache.set`
  and `del` is `Cache.eraseKey`.
* A Python "mtime" value is either the integer sentinel `0` (file absent)
  or an `(st_mtime_ns, st_size, st_ino)` triple; `MTime` is this sum, and
  Python `==` between the sentinel and a triple is `False`, matching
  `DecidableEq` on `MTime`.
* Fallible operations return `Option`/`Except` instead of raising.
-/

set_option autoImplicit false

instance {ε α : Type} [DecidableEq ε] [DecidableEq α] : DecidableEq (Except ε α)
  | .error a, .error b => decidable_of_iff (a = b) (by simp)
  | .error _, .ok _ => isFalse (by simp)
  | .ok _, .error _ => isFalse (by simp)
  | .ok a, .ok b => decidable_of_iff (a = b) (by simp)

namespace BBParse

/-- An `(st_mtime_ns, st_size, st_ino)` triple from a successful `os.stat`. -/
abbrev Fingerprint := Int × Int × Int

/-- A value stored in or returned by the mtime machinery: either a real stat
triple or the integer `0` sentinel used for paths that cannot be stat'd. -/
inductive MTime where
  | absent : MTime
  | fp : Fingerprint → MTime
deriving DecidableEq, Repr

/-- True iff the value is a real stat triple (not the `0` sentinel). -/
def MTime.isFp : MTime → Bool
  | .absent => false
  | .fp _ => true

/-- The filesystem: `some` is a successful `os.stat`, `none` an `OSError`. -/
abbrev FS := String → Option Fingerprint

/-- The `__mtime_cache` dict, as an association list from path to value. -/
abbrev Cache := List (String × MTime)

/-- Dict lookup: `__mtime_cache[f]` / `f in __mtime_cache`. -/
def Cache.find : Cache → String → Option MTime
  | [], _ => none
  | (g, v) :: t, f => if g = f then some v else Cache.find t f

/-- Dict deletion: `del __mtime_cache[f]` (no-op when the key is absent). -/
def Cache.eraseKey (c : Cache) (f : String) : Cache :=
  c.filter (fun p => p.1 != f)

/-- Dict assignment: `__mtime_cache[f] = v`. -/
def Cache.set (c : Cache) (f : String) (v : MTime) : Cache :=
  (f, v) :: Cache.eraseKey c f

/-- The fingerprint `check_mtime` computes for the present filesystem state:
the stat triple when the stat succeeds, the sentinel when it fails. -/
def currentMTime (fs : FS) (f : String) : MTime :=
  match fs f with
  | some r => .fp r
  | none => .absent

/-- `cached_mtime(f)`: memoized stat; propagates the `OSError` (as `none`)
when the file is uncached and cannot be stat'd. -/
def cached_mtime (fs : FS) (c : Cache) (f : String) : Option (MTime × Cache) :=
  match Cache.find c f with
  | some v => some (v, c)
  | none =>
    match fs f with
    | some r => some (.fp r, Cache.set c f (.fp r))
    | none => none

/-- `cached_mtime_noerror(f)`: memoized stat returning the `0` sentinel,
without caching it, when the file is uncached and cannot be stat'd. -/
def cached_mtime_noerror (fs : FS) (c : Cache) (f : String) : MTime × Cache :=
  match Cache.find c f with
  | some v => (v, c)
  | none =>
    match fs f with
    | some r => (.fp r, Cache.set c f (.fp r))
    | none => (.absent, c)

/-- `check_mtime(f, mtime)`: re-stats, stores the current triple in the cache
when the stat succeeds (and only then), and compares current to expected. -/
def check_mtime (fs : FS) (c : Cache) (f : String) (mtime : MTime) : Bool × Cache :=
  match fs f with
  | some r => (MTime.fp r == mtime, Cache.set c f (.fp r))
  | none => (MTime.absent == mtime, c)

/-- `update_mtime(f)`: force-refreshes the cache entry, deleting it (and
returning the sentinel) when the file can no longer be stat'd. -/
def update_mtime (fs : FS) (c : Cache) (f : String) : MTime × Cache :=
  match fs f with
  | some r => (.fp r, Cache.set c f (.fp r))
  | none => (.absent, Cache.eraseKey c f)

/-- The build context (`d`): its `__depends` variable (an ordered list of
`(path, mtime)` pairs) and its `inchistory` inclusion chain. -/
structure Ctx where
  depends : List (String × MTime)
  inchistory : List String
deriving DecidableEq

/-- The `./`-prefix rewriting done at the top of `mark_dependency`:
`f = "%s/%s" % (os.getcwd(), f[2:])` when `f` starts with `./`. -/
def normDep (cwd : String) (f : String) : String :=
  match f.data with
  | '.' :: '/' :: rest => cwd ++ "/" ++ String.mk rest
  | _ => f

/-- `mark_dependency(d, f)`: appends `(f, cached_mtime_noerror(f))` to the
context's `__depends` list unless that exact pair is already present. -/
def mark_dependency (fs : FS) (cwd : String) (c : Cache) (d : Ctx) (f0 : String) :
    Cache × Ctx :=
  let f := normDep cwd f0
  let r := cached_mtime_noerror fs c f
  let s := (f, r.1)
  if s ∈ d.depends then (r.2, d)
  else (r.2, { d with depends := d.depends ++ [s] })

/-- The `ParseError` exception: its message and the filename it carries. -/
structure ParseErr where
  msg : String
  filename : String
deriving DecidableEq

/-- A registered handler dict `{supports, handle, init}` (only the fields
used by `bb.parse.handle` are modelled); `α` is the entry point's result. -/
structure HandlerD (α : Type) where
  supports : String → Ctx → Bool
  handle : String → Ctx → Nat → Bool → α

/-- Entering `data.inchistory.include(fn)`: the entry point runs with `fn`
pushed onto the context's inclusion chain. -/
def pushInc (d : Ctx) (fn : String) : Ctx :=
  { d with inchistory := fn :: d.inchistory }

/-- `bb.parse.handle(fn, data, include, baseconfig)`: first handler whose
`supports` accepts the file wins; `ParseError("not a BitBake file", fn)`
when none does. -/
def handle {α : Type} (hs : List (HandlerD α)) (fn : String) (d : Ctx)
    (inc : Nat) (baseconfig : Bool) : Except ParseErr α :=
  match hs with
  | [] => .error ⟨"not a BitBake file", fn⟩
  | h :: rest =>
    if h.supports fn d then .ok (h.handle fn (pushInc d fn) inc baseconfig)
    else handle rest fn d inc baseconfig

/-- `os.path.isabs`, for the POSIX paths this subsystem handles. -/
def isAbs (fn : String) : Bool :=
  match fn.data with
  | [] => false
  | ch :: _ => ch == '/'

/-- Python `str.split(sep)` on a single-character separator (never returns
an empty list; splitting the empty string yields `[""]`). -/
def splitOnCharAux (sep : Char) : List Char → List Char → List (List Char)
  | [], acc => [acc.reverse]
  | x :: xs, acc =>
    if x == sep then acc.reverse :: splitOnCharAux sep xs []
    else splitOnCharAux sep xs (x :: acc)

/-- Split a string on every occurrence of a separator character. -/
def splitOnChar (sep : Char) (s : String) : List String :=
  (splitOnCharAux sep s.data []).map String.mk

/-- Modelled from the spec: `bb.utils.which(path, item, history=True)` is not
part of the excerpt.  Per §4.2, the non-absolute filename "is searched across
an ordered list of search directories (a colon/semicolon-delimited path list
held in the context), every directory probed along the way is recorded ...
and the first hit is returned": each directory in order contributes the
candidate `dir ++ "/" ++ item` to the probe history, and the search stops at
the first candidate that exists, returning it together with the history of
candidates probed so far. -/
def which (fs : FS) (dirs : List String) (item : String) :
    Option String × List String :=
  match dirs with
  | [] => (none, [])
  | p :: rest =>
    let cand := p ++ "/" ++ item
    if (fs cand).isSome then (some cand, [cand])
    else
      let r := which fs rest item
      (r.1, cand :: r.2)

/-- `mark_dependency` folded over the probe history returned by `which`. -/
def markAll (fs : FS) (cwd : String) : Cache × Ctx → List String → Cache × Ctx
  | st, [] => st
  | st, f :: rest => markAll fs cwd (mark_dependency fs cwd st.1 st.2 f) rest

/-- The `IOError(errno.ENOENT, msg)` raised by `resolve_file`. -/
inductive ResolveError where
  | enoent : String → ResolveError
deriving DecidableEq

/-- `resolve_file(fn, d)`: absolute paths are recorded and existence-checked
directly; relative paths are searched through `BBPATH` via `which`, every
probed candidate is recorded, and a miss raises `IOError(ENOENT, ...)`
naming the search list.  The result carries the final cache and context
alongside the outcome, since dependencies recorded before a raise persist. -/
def resolve_file (fs : FS) (cwd : String) (bbpath : String) (c : Cache) (d : Ctx)
    (fn : String) : Except ResolveError String × Cache × Ctx :=
  if isAbs fn then
    let st := mark_dependency fs cwd c d fn
    if (fs fn).isSome then (.ok fn, st)
    else (.error (.enoent ("file " ++ fn ++ " not found")), st)
  else
    let r := which fs (splitOnChar ':' bbpath) fn
    let st := markAll fs cwd (c, d) r.2
    match r.1 with
    | none => (.error (.enoent ("file " ++ fn ++ " not found in " ++ bbpath)), st)
    | some newfn =>
      if (fs newfn).isSome then (.ok newfn, st)
      else (.error (.enoent ("file " ++ newfn ++ " not found")), st)

/-- Python `str.endswith(suffix)`. -/
def strEndsWith (s suffix : String) : Bool :=
  suffix.data.isSuffixOf s.data

/-- `os.path.basename`: everything after the last `/`. -/
def basenameChars (s : List Char) : List Char :=
  (s.reverse.takeWhile (fun ch => ch != '/')).reverse

/-- The root component of `os.path.splitext` on a path with no `/` in it:
split at the last `.`, except that a basename consisting only of leading
dots before that last dot is not split (CPython's `genericpath._splitext`). -/
def splitextRoot (b : List Char) : List Char :=
  match b.reverse.dropWhile (fun ch => ch != '.') with
  | [] => b
  | _ :: r => if r.all (fun ch => ch == '.') then b else r.reverse

/-- The `__pkgsplit_cache__` dict: full filename to the cached parts list.
The list elements are `Option String` because a successful decomposition is
padded with `None` up to three entries (and the padding `extend` mutates the
very list object stored in the cache). -/
abbrev PkgCache := List (String × List (Option String))

/-- Dict lookup in `__pkgsplit_cache__`. -/
def PkgCache.find : PkgCache → String → Option (List (Option String))
  | [], _ => none
  | (g, v) :: t, f => if g = f then some v else PkgCache.find t f

/-- Dict assignment in `__pkgsplit_cache__`. -/
def PkgCache.set (c : PkgCache) (f : String) (v : List (Option String)) : PkgCache :=
  (f, v) :: c.filter (fun p => p.1 != f)

/-- `vars_from_file(mypkg, d)`: decompose a recipe filename into up to three
underscore-separated parts.  Faithful to the source: the raw split is stored
in `__pkgsplit_cache__` *before* the more-than-three-parts check, the error
is raised after that store, and in the success case the in-place `extend`
leaves the padded list in the cache. -/
def vars_from_file (mypkg : String) (pc : PkgCache) :
    Except ParseErr (List (Option String)) × PkgCache :=
  if mypkg.data.isEmpty || !(strEndsWith mypkg ".bb" || strEndsWith mypkg ".bbappend") then
    (.ok [none, none, none], pc)
  else
    match PkgCache.find pc mypkg with
    | some v => (.ok v, pc)
    | none =>
      let root := splitextRoot (basenameChars mypkg.data)
      let parts : List (Option String) :=
        (splitOnCharAux '_' root []).map (fun cs => some (String.mk cs))
      if parts.length > 3 then
        (.error ⟨"Unable to generate default variables from filename (too many underscores)",
                 mypkg⟩,
         PkgCache.set pc mypkg parts)
      else
        (.ok (parts ++ List.replicate (3 - parts.length) none),
         PkgCache.set pc mypkg (parts ++ List.replicate (3 - parts.length) none))

/-- A Python function object, with the two attributes the decorators touch
(`none` models the attribute being absent). -/
structure PyFunc where
  bb_vardeps : Option (Finset String)
  bb_vardepsexclude : Option (Finset String)

/-- The `bb.parse.vardeps(*varnames)` decorator applied to a function:
creates `bb_vardeps` as an empty set if absent, then unions the given names
into it. -/
def vardeps (varnames : Finset String) (f : PyFunc) : PyFunc :=
  { f with bb_vardeps := some (f.bb_vardeps.getD ∅ ∪ varnames) }

/-- The `bb.parse.vardepsexclude(*varnames)` decorator, same shape on the
exclusion attribute. -/
def vardepsexclude (varnames : Finset String) (f : PyFunc) : PyFunc :=
  { f with bb_vardepsexclude := some (f.bb_vardepsexclude.getD ∅ ∪ varnames) }

/-- A Python value as compared by `==` in the S3 fetcher's error mapping:
`e.response["Error"]["Code"]` is compared both to the string `"404"` and to
the integer `403`; Python equality across `str` and `int` is `False`. -/
inductive PyVal where
  | str : String → PyVal
  | int : Int → PyVal
deriving DecidableEq

/-- Python `==` on such values: equal only within the same type. -/
def pyEq : PyVal → PyVal → Bool
  | .str a, .str b => a == b
  | .int a, .int b => a == b
  | _, _ => false

/-- The distinguishable `FetchError` outcomes of `S3._boto_download` and
`S3._boto_checkstatus` when `botocore` reports a `ClientError`. -/
inductive BotoFetchError where
  | notFound : BotoFetchError
  | accessDenied : BotoFetchError
  | generic : BotoFetchError
deriving DecidableEq

/-- The `ClientError` branch shared by `S3._boto_download` and
`S3._boto_checkstatus`: `if e.response["Error"]["Code"] == "404"` raises the
not-found error, `elif e.response["Error"]["Code"] == 403` (the integer) the
access-denied error, and anything else the generic failure error. -/
def boto_error_map (code : PyVal) : BotoFetchError :=
  if pyEq code (.str "404") then .notFound
  else if pyEq code (.int 403) then .accessDenied
  else .generic

/-- Every value stored in the mtime cache is a real stat triple. -/
def cacheFPb (c : Cache) : Bool :=
  c.all (fun p => p.2.isFp)

theorem find_set_self (c : Cache) (f : String) (v : MTime) :
    Cache.find (Cache.set c f v) f = some v := by
  simp [Cache.set, Cache.find]

theorem cacheFPb_eraseKey (c : Cache) (f : String) (h : cacheFPb c = true) :
    cacheFPb (Cache.eraseKey c f) = true := by
  simp only [cacheFPb, Cache.eraseKey, List.all_eq_true] at *
  intro p hp
  exact h p (List.mem_of_mem_filter hp)

theorem cacheFPb_set (c : Cache) (f : String) (v : Fingerprint) (h : cacheFPb c = true) :
    cacheFPb (Cache.set c f (.fp v)) = true := by
  have h2 := cacheFPb_eraseKey c f h
  simp only [cacheFPb, Cache.set, List.all_cons, MTime.isFp, Bool.true_and] at h2 ⊢
  exact h2

end BBParse

namespace BBParse

theorem cached_mtime_find (fs : FS) (c : Cache) (f : String) (v : MTime) (c' : Cache)
    (h : cached_mtime fs c f = some (v, c')) : Cache.find c' f = some v := by
  unfold cached_mtime at h
  cases hf : Cache.find c f with
  | some w =>
    rw [hf] at h
    simp only [Option.some.injEq, Prod.mk.injEq] at h
    rw [← h.2, ← h.1]
    exact hf
  | none =>
    rw [hf] at h
    cases hfs : fs f with
    | some r =>
      rw [hfs] at h
      simp only [Option.some.injEq, Prod.mk.injEq] at h
      rw [← h.2, ← h.1]
      exact find_set_self c f (.fp r)
    | none => rw [hfs] at h; exact absurd h (by simp)

/-- C5: a `cached_mtime` lookup that returns a fingerprint leaves that
fingerprint in the cache, so a second lookup with the filesystem unchanged
(indeed with any filesystem at all, showing the second call performs no
stat) returns the identical fingerprint and the identical cache. -/
theorem cached_mtime_memo (fs : FS) (c : Cache) (f : String) (v : MTime) (c' : Cache)
    (h : cached_mtime fs c f = some (v, c')) :
    Cache.find c' f = some v ∧ ∀ fs2 : FS, cached_mtime fs2 c' f = some (v, c') := by
  have hf := cached_mtime_find fs c f v c' h
  refine ⟨hf, fun fs2 => ?_⟩
  unfold cached_mtime
  rw [hf]

/-- C5 witness: after a first lookup of an uncached file stats `(1,2,3)`,
a second lookup against a filesystem that can no longer stat anything still
returns `(1,2,3)` from the cache. -/
theorem cached_mtime_memo_witness :
    Cache.find [("x", MTime.fp (1, 2, 3))] "x" = some (MTime.fp (1, 2, 3)) ∧
    cached_mtime (fun _ => none) [("x", MTime.fp (1, 2, 3))] "x"
      = some (MTime.fp (1, 2, 3), [("x", MTime.fp (1, 2, 3))]) := by
  have h := cached_mtime_memo (fun _ => some (1, 2, 3)) [] "x" (MTime.fp (1, 2, 3))
    [("x", MTime.fp (1, 2, 3))] (by decide)
  exact ⟨h.1, h.2 (fun _ => none)⟩

/-- C7: `check_mtime(f, update_mtime(f))` returns true when the filesystem
does not change between the two calls, both when `f` stats successfully and
when it is absent, in which case `update_mtime` returned the `0` sentinel. -/
theorem check_after_update (fs : FS) (c : Cache) (f : String) :
    (check_mtime fs (update_mtime fs c f).2 f (update_mtime fs c f).1).1 = true ∧
    (fs f = none → (update_mtime fs c f).1 = MTime.absent) := by
  cases h : fs f <;> simp [check_mtime, update_mtime, h]

/-- C7 witness: the check-after-refresh roundtrip at a concrete absent file,
where the refresh returns the sentinel. -/
theorem check_after_update_witness :
    (check_mtime (fun _ => none)
        (update_mtime (fun _ => none) [("f", MTime.fp (1, 1, 1))] "f").2 "f"
        (update_mtime (fun _ => none) [("f", MTime.fp (1, 1, 1))] "f").1).1 = true ∧
    (update_mtime (fun _ => none) [("f", MTime.fp (1, 1, 1))] "f").1 = MTime.absent := by
  have h := check_after_update (fun _ => none) [("f", MTime.fp (1, 1, 1))] "f"
  exact ⟨h.1, h.2 rfl⟩

/-- C2 counterexample: when the stat fails, `check_mtime` does not update
the cache entry — the entry for `f` keeps the stale fingerprint `(1,1,1)`
even though the current value is the absent sentinel, contradicting the
claim that the entry is updated to the current fingerprint even when the
stat fails. -/
theorem check_mtime_stale_on_failure :
    Cache.find (check_mtime (fun _ => none) [("f", MTime.fp (1, 1, 1))] "f"
        (MTime.fp (1, 1, 1))).2 "f" = some (MTime.fp (1, 1, 1)) ∧
    currentMTime (fun _ => none) "f" = MTime.absent ∧
    MTime.fp (1, 1, 1) ≠ MTime.absent := by decide

/-- C2 (amended): `check_mtime` re-stats `f`; it updates the cache entry to
the current fingerprint exactly when the stat succeeds, leaves the cache
unchanged when the stat fails, and returns true iff the current value
(the stat triple, or the absent sentinel on failure) equals the expected
one. -/
theorem check_mtime_spec (fs : FS) (c : Cache) (f : String) (m : MTime) :
    ((check_mtime fs c f m).1 = true ↔ currentMTime fs f = m) ∧
    (∀ r : Fingerprint, fs f = some r → (check_mtime fs c f m).2 = Cache.set c f (.fp r)) ∧
    (fs f = none → (check_mtime fs c f m).2 = c) := by
  cases h : fs f <;> simp [check_mtime, currentMTime, h]

/-- C2 witness: the amended contract at a concrete file that stats to
`(5,6,7)` (cache updated, comparison true) and at an absent file (cache
left unchanged). -/
theorem check_mtime_spec_witness :
    (check_mtime (fun _ => some (5, 6, 7)) [] "g" (MTime.fp (5, 6, 7))).1 = true ∧
    (check_mtime (fun _ => some (5, 6, 7)) [] "g" (MTime.fp (5, 6, 7))).2
      = Cache.set [] "g" (MTime.fp (5, 6, 7)) ∧
    (check_mtime (fun _ => none) [] "g" (MTime.fp (5, 6, 7))).2 = [] := by
  have h1 := check_mtime_spec (fun _ => some (5, 6, 7)) [] "g" (MTime.fp (5, 6, 7))
  have h2 := check_mtime_spec (fun _ => none) [] "g" (MTime.fp (5, 6, 7))
  exact ⟨h1.1.mpr rfl, h1.2.1 (5, 6, 7) rfl, h2.2.2 rfl⟩

/-- C1: `vars_from_file("foo_1_2_3.bb")` raises the Ambiguous `ParseError`
on the first call, but because the raw split is stored in
`__pkgsplit_cache__` before the more-than-three-parts check, a second call
with the same filename returns the cached four-element list instead of
raising — the claim that every call raises, despite the cache, fails. -/
theorem vars_from_file_cache_bug :
    (vars_from_file "foo_1_2_3.bb" []).1
      = .error ⟨"Unable to generate default variables from filename (too many underscores)",
                "foo_1_2_3.bb"⟩ ∧
    (vars_from_file "foo_1_2_3.bb" (vars_from_file "foo_1_2_3.bb" []).2).1
      = .ok [some "foo", some "1", some "2", some "3"] := by decide

/-- C9: the boto error mapping distinguishes a provider "404" (compared as
the string `"404"`) as the not-found error, but the access-denied branch
compares the code to the integer `403`, which a provider string code
`"403"` never equals under Python equality — so an access-denied response
yields the generic failure error, not the access-denied one. -/
theorem boto_error_map_403 :
    boto_error_map (.str "404") = .notFound ∧
    boto_error_map (.str "403") = .generic ∧
    BotoFetchError.generic ≠ BotoFetchError.accessDenied ∧
    boto_error_map (.int 403) = .accessDenied := by decide

end BBParse

namespace BBParse

theorem cached_mtime_noerror_stable (fs : FS) (c : Cache) (f : String) :
    cached_mtime_noerror fs (cached_mtime_noerror fs c f).2 f
      = cached_mtime_noerror fs c f := by
  unfold cached_mtime_noerror
  cases hf : Cache.find c f with
  | some v => simp [hf]
  | none =>
    cases hfs : fs f with
    | some r => simp [hf, hfs, find_set_self]
    | none => simp [hf, hfs]

/-- C10: (a) each mtime-cache operation preserves the invariant that every
stored value is a real stat triple (never the `0` sentinel); (b) when an
uncached path cannot be stat'd, `cached_mtime_noerror` returns the sentinel
without inserting anything, so a later call against a filesystem where the
file now exists observes the new fingerprint with no explicit refresh;
(c) `update_mtime` on a vanished file deletes the entry rather than storing
the sentinel. -/
theorem stat_cache_invariant (fs fs2 : FS) (c : Cache) (f : String) (m : MTime)
    (r : Fingerprint) (hc : cacheFPb c = true) :
    (∀ v c', cached_mtime fs c f = some (v, c') → cacheFPb c' = true) ∧
    cacheFPb (cached_mtime_noerror fs c f).2 = true ∧
    cacheFPb (check_mtime fs c f m).2 = true ∧
    cacheFPb (update_mtime fs c f).2 = true ∧
    (Cache.find c f = none → fs f = none →
      cached_mtime_noerror fs c f = (MTime.absent, c) ∧
      (fs2 f = some r → (cached_mtime_noerror fs2 c f).1 = MTime.fp r)) ∧
    (fs f = none → update_mtime fs c f = (MTime.absent, Cache.eraseKey c f)) := by
  refine ⟨?_, ?_, ?_, ?_, ?_, ?_⟩
  · intro v c' h
    unfold cached_mtime at h
    cases hf : Cache.find c f with
    | some w =>
      rw [hf] at h
      simp only [Option.some.injEq, Prod.mk.injEq] at h
      rw [← h.2]
      exact hc
    | none =>
      rw [hf] at h
      cases hfs : fs f with
      | some s =>
        rw [hfs] at h
        simp only [Option.some.injEq, Prod.mk.injEq] at h
        rw [← h.2]
        exact cacheFPb_set c f s hc
      | none => rw [hfs] at h; exact absurd h (by simp)
  · unfold cached_mtime_noerror
    cases hf : Cache.find c f with
    | some w => exact hc
    | none =>
      cases hfs : fs f with
      | some s => exact cacheFPb_set c f s hc
      | none => exact hc
  · unfold check_mtime
    cases hfs : fs f with
    | some s => exact cacheFPb_set c f s hc
    | none => exact hc
  · unfold update_mtime
    cases hfs : fs f with
    | some s => exact cacheFPb_set c f s hc
    | none => exact cacheFPb_eraseKey c f hc
  · intro hf hfs
    constructor
    · unfold cached_mtime_noerror
      rw [hf, hfs]
    · intro h2
      unfold cached_mtime_noerror
      rw [hf, h2]
  · intro hfs
    unfold update_mtime
    rw [hfs]

/-- C10 witness: the invariant and the sentinel-free behaviors at a concrete
one-entry cache, an absent path `b`, and a filesystem where `b` later
appears with fingerprint `(9,9,9)`. -/
theorem stat_cache_invariant_witness :
    cacheFPb (cached_mtime_noerror (fun _ => none) [("a", MTime.fp (1, 1, 1))] "b").2 = true ∧
    cached_mtime_noerror (fun _ => none) [("a", MTime.fp (1, 1, 1))] "b"
      = (MTime.absent, [("a", MTime.fp (1, 1, 1))]) ∧
    (cached_mtime_noerror (fun _ => some (9, 9, 9)) [("a", MTime.fp (1, 1, 1))] "b").1
      = MTime.fp (9, 9, 9) ∧
    update_mtime (fun _ => none) [("a", MTime.fp (1, 1, 1))] "b"
      = (MTime.absent, Cache.eraseKey [("a", MTime.fp (1, 1, 1))] "b") := by
  have h := stat_cache_invariant (fun _ => none) (fun _ => some (9, 9, 9))
    [("a", MTime.fp (1, 1, 1))] "b" MTime.absent (9, 9, 9) (by decide)
  have h5 := h.2.2.2.2.1 (by decide) rfl
  exact ⟨h.2.1, h5.1, h5.2 rfl, h.2.2.2.2.2 rfl⟩

/-- C6: `mark_dependency` is idempotent — with the filesystem unchanged, a
second call with the same path is a no-op (identical cache and context), and
when the `(path, fingerprint)` pair was not already recorded the final
`__depends` list holds exactly one copy of it. -/
theorem mark_dependency_idem (fs : FS) (cwd : String) (c : Cache) (d : Ctx) (f : String)
    (h : (normDep cwd f, (cached_mtime_noerror fs c (normDep cwd f)).1) ∉ d.depends) :
    mark_dependency fs cwd (mark_dependency fs cwd c d f).1 (mark_dependency fs cwd c d f).2 f
      = mark_dependency fs cwd c d f ∧
    ((mark_dependency fs cwd (mark_dependency fs cwd c d f).1
        (mark_dependency fs cwd c d f).2 f).2).depends.count
      (normDep cwd f, (cached_mtime_noerror fs c (normDep cwd f)).1) = 1 := by
  have hstable := cached_mtime_noerror_stable fs c (normDep cwd f)
  simp only [mark_dependency, if_neg h, hstable]
  have hmem : (normDep cwd f, (cached_mtime_noerror fs c (normDep cwd f)).1)
      ∈ d.depends ++ [(normDep cwd f, (cached_mtime_noerror fs c (normDep cwd f)).1)] := by
    simp
  simp only [if_pos hmem, true_and]
  rw [List.count_append]
  rw [List.count_eq_zero.mpr h]
  simp

/-- C6 witness: recording the same uncached, existing path twice in a fresh
context leaves exactly one `(path, fingerprint)` pair. -/
theorem mark_dependency_idem_witness :
    mark_dependency (fun _ => some (2, 2, 2)) "/cwd"
        (mark_dependency (fun _ => some (2, 2, 2)) "/cwd" [] ⟨[], []⟩ "p.bb").1
        (mark_dependency (fun _ => some (2, 2, 2)) "/cwd" [] ⟨[], []⟩ "p.bb").2 "p.bb"
      = mark_dependency (fun _ => some (2, 2, 2)) "/cwd" [] ⟨[], []⟩ "p.bb" ∧
    ((mark_dependency (fun _ => some (2, 2, 2)) "/cwd"
        (mark_dependency (fun _ => some (2, 2, 2)) "/cwd" [] ⟨[], []⟩ "p.bb").1
        (mark_dependency (fun _ => some (2, 2, 2)) "/cwd" [] ⟨[], []⟩ "p.bb").2 "p.bb").2).depends.count
      ("p.bb", MTime.fp (2, 2, 2)) = 1 := by
  have h := mark_dependency_idem (fun _ => some (2, 2, 2)) "/cwd" [] ⟨[], []⟩ "p.bb" (by decide)
  exact ⟨h.1, h.2⟩

end BBParse

namespace BBParse

theorem handle_cons {α : Type} (p : HandlerD α) (t : List (HandlerD α)) (fn : String)
    (d : Ctx) (inc : Nat) (bc : Bool) :
    handle (p :: t) fn d inc bc
      = if p.supports fn d then .ok (p.handle fn (pushInc d fn) inc bc)
        else handle t fn d inc bc := rfl

theorem handle_skip {α : Type} (pre rest : List (HandlerD α)) (fn : String) (d : Ctx)
    (inc : Nat) (bc : Bool) (hpre : ∀ h2 ∈ pre, h2.supports fn d = false) :
    handle (pre ++ rest) fn d inc bc = handle rest fn d inc bc := by
  induction pre with
  | nil => rfl
  | cons p t ih =>
    have hp := hpre p (List.mem_cons_self p t)
    rw [List.cons_append, handle_cons]
    simp only [hp, Bool.false_eq_true, if_false]
    exact ih (fun h2 hm => hpre h2 (List.mem_cons_of_mem p hm))

theorem handle_no_match {α : Type} (hs : List (HandlerD α)) (fn : String) (d : Ctx)
    (inc : Nat) (bc : Bool) (hall : ∀ h2 ∈ hs, h2.supports fn d = false) :
    handle hs fn d inc bc = .error ⟨"not a BitBake file", fn⟩ := by
  induction hs with
  | nil => rfl
  | cons p t ih =>
    have hp := hall p (List.mem_cons_self p t)
    rw [handle_cons]
    simp only [hp, Bool.false_eq_true, if_false]
    exact ih (fun h2 hm => hall h2 (List.mem_cons_of_mem p hm))

/-- C4: `handle` invokes the entry point of the first registered handler
whose predicate accepts the path — with the path pushed onto the context's
inclusion chain — and returns its result; the result does not depend on the
handlers registered after the first match (they are never invoked, the
statement holds for every `post`); when no registered handler accepts the
path it fails with `ParseError("not a BitBake file", fn)` carrying the
path. -/
theorem handle_first_match {α : Type} (pre post : List (HandlerD α)) (h : HandlerD α)
    (fn : String) (d : Ctx) (inc : Nat) (bc : Bool) :
    ((∀ h2 ∈ pre, h2.supports fn d = false) → h.supports fn d = true →
      handle (pre ++ h :: post) fn d inc bc
        = .ok (h.handle fn (pushInc d fn) inc bc)) ∧
    ((∀ h2 ∈ pre ++ h :: post, h2.supports fn d = false) →
      handle (pre ++ h :: post) fn d inc bc = .error ⟨"not a BitBake file", fn⟩) := by
  constructor
  · intro hpre hh
    rw [handle_skip pre (h :: post) fn d inc bc hpre]
    unfold handle
    simp only [hh, if_true]
  · intro hall
    exact handle_no_match (pre ++ h :: post) fn d inc bc hall

/-- C4 witness: two handlers both of whose predicates always accept; the
first registered one (returning `1`) wins, never the second (returning
`2`). -/
theorem handle_first_match_witness :
    handle [⟨fun _ _ => true, fun _ _ _ _ => (1 : Nat)⟩,
            ⟨fun _ _ => true, fun _ _ _ _ => (2 : Nat)⟩] "f.bb" ⟨[], []⟩ 0 false
      = .ok 1 := by
  have h := (handle_first_match [] [⟨fun _ _ => true, fun _ _ _ _ => (2 : Nat)⟩]
    ⟨fun _ _ => true, fun _ _ _ _ => (1 : Nat)⟩ "f.bb" ⟨[], []⟩ 0 false).1
    (by intro h2 hm; exact absurd hm (List.not_mem_nil h2)) rfl
  exact h

/-- C8: the `vardeps` decorator unions the given names into the function's
`bb_vardeps` attribute, creating it when absent: annotating with `{A, B}`
and then `{B, C}` leaves the attribute equal to `{A, B, C}`, successive
applications always union (never replace), and a first application to a
function without the attribute installs exactly the given names. -/
theorem vardeps_union (f : PyFunc) (A B C : String) (s t : Finset String) :
    (f.bb_vardeps = none →
      (vardeps {B, C} (vardeps {A, B} f)).bb_vardeps = some {A, B, C}) ∧
    (vardeps t (vardeps s f)).bb_vardeps = some (f.bb_vardeps.getD ∅ ∪ s ∪ t) ∧
    (f.bb_vardeps = none → (vardeps s f).bb_vardeps = some s) := by
  refine ⟨?_, ?_, ?_⟩
  · intro hf
    simp only [vardeps, hf, Option.getD_none, Option.getD_some, Option.some.injEq]
    ext a
    simp only [Finset.mem_union, Finset.mem_insert, Finset.mem_singleton,
      Finset.not_mem_empty, false_or]
    tauto
  · simp [vardeps, Finset.union_assoc]
  · intro hf
    simp [vardeps, hf]

/-- C8 witness: a fresh function annotated with `{"A","B"}` then
`{"B","C"}` ends with dependency set `{"A","B","C"}`. -/
theorem vardeps_union_witness :
    (vardeps {"B", "C"} (vardeps {"A", "B"} ⟨none, none⟩)).bb_vardeps
      = some {"A", "B", "C"} :=
  (vardeps_union ⟨none, none⟩ "A" "B" "C" {"A"} {"A"}).1 rfl

end BBParse

namespace BBParse

/-- C3: resolving `foo.bb` against search path `/a:/b` when the file exists
only under `/b` records a dependency pair for each probed candidate (both
`/a/foo.bb` and `/b/foo.bb`) and returns `/b/foo.bb`; when the file exists
in neither directory it fails with `IOError(ENOENT)` naming the search
list; an absolute path that does not exist fails with `IOError(ENOENT)`
naming that single path. -/
theorem resolve_file_spec (fs : FS) (cwd : String) (c : Cache) (d : Ctx)
    (v : Fingerprint) (p : String) :
    (fs "/a/foo.bb" = none → fs "/b/foo.bb" = some v → d.depends = [] →
      (resolve_file fs cwd "/a:/b" c d "foo.bb").1 = .ok "/b/foo.bb" ∧
      ∃ m1 m2, (resolve_file fs cwd "/a:/b" c d "foo.bb").2.2.depends
        = [("/a/foo.bb", m1), ("/b/foo.bb", m2)]) ∧
    (fs "/a/foo.bb" = none → fs "/b/foo.bb" = none →
      (resolve_file fs cwd "/a:/b" c d "foo.bb").1
        = .error (.enoent "file foo.bb not found in /a:/b")) ∧
    (isAbs p = true → fs p = none →
      (resolve_file fs cwd "/a:/b" c d p).1
        = .error (.enoent ("file " ++ p ++ " not found"))) := by
  have hsplit : splitOnChar ':' "/a:/b" = ["/a", "/b"] := by decide
  have hca : ("/a" ++ "/" ++ "foo.bb" : String) = "/a/foo.bb" := rfl
  have hcb : ("/b" ++ "/" ++ "foo.bb" : String) = "/b/foo.bb" := rfl
  have habs : isAbs "foo.bb" = false := by decide
  refine ⟨?_, ?_, ?_⟩
  · intro ha hb hd
    have hwhich : which fs (splitOnChar ':' "/a:/b") "foo.bb"
        = (some "/b/foo.bb", ["/a/foo.bb", "/b/foo.bb"]) := by
      rw [hsplit]
      unfold which
      rw [hca]
      unfold which
      rw [hcb]
      simp [which, ha, hb]
    have hnorm1 : normDep cwd "/a/foo.bb" = "/a/foo.bb" := rfl
    have hnorm2 : normDep cwd "/b/foo.bb" = "/b/foo.bb" := rfl
    have hm1 : mark_dependency fs cwd c d "/a/foo.bb"
        = ((cached_mtime_noerror fs c "/a/foo.bb").2,
           { d with depends := [("/a/foo.bb", (cached_mtime_noerror fs c "/a/foo.bb").1)] }) := by
      simp only [mark_dependency, hnorm1, hd]
      rw [if_neg (List.not_mem_nil _)]
      simp
    have hm2 : mark_dependency fs cwd (cached_mtime_noerror fs c "/a/foo.bb").2
        { d with depends := [("/a/foo.bb", (cached_mtime_noerror fs c "/a/foo.bb").1)] }
        "/b/foo.bb"
        = ((cached_mtime_noerror fs (cached_mtime_noerror fs c "/a/foo.bb").2 "/b/foo.bb").2,
           { d with depends :=
              [("/a/foo.bb", (cached_mtime_noerror fs c "/a/foo.bb").1),
               ("/b/foo.bb",
                (cached_mtime_noerror fs
                  (cached_mtime_noerror fs c "/a/foo.bb").2 "/b/foo.bb").1)] }) := by
      simp only [mark_dependency, hnorm2]
      rw [if_neg ?hne]
      case hne =>
        intro hmem
        rw [List.mem_singleton, Prod.mk.injEq] at hmem
        exact absurd hmem.1 (by decide)
      simp
    have hmark : markAll fs cwd (c, d) ["/a/foo.bb", "/b/foo.bb"]
        = ((cached_mtime_noerror fs (cached_mtime_noerror fs c "/a/foo.bb").2 "/b/foo.bb").2,
           { d with depends :=
              [("/a/foo.bb", (cached_mtime_noerror fs c "/a/foo.bb").1),
               ("/b/foo.bb",
                (cached_mtime_noerror fs
                  (cached_mtime_noerror fs c "/a/foo.bb").2 "/b/foo.bb").1)] }) := by
      simp only [markAll, hm1, hm2]
    simp only [resolve_file, habs, Bool.false_eq_true, if_false, hwhich, hmark]
    constructor
    · simp [hb]
    · refine ⟨(cached_mtime_noerror fs c "/a/foo.bb").1,
        (cached_mtime_noerror fs
          (cached_mtime_noerror fs c "/a/foo.bb").2 "/b/foo.bb").1, ?_⟩
      simp [hb]
  · intro ha hb
    have hwhich : which fs (splitOnChar ':' "/a:/b") "foo.bb"
        = (none, ["/a/foo.bb", "/b/foo.bb"]) := by
      rw [hsplit]
      unfold which
      rw [hca]
      unfold which
      rw [hcb]
      simp [which, ha, hb]
    simp only [resolve_file, habs, Bool.false_eq_true, if_false, hwhich]
    rfl
  · intro hp hfs
    simp only [resolve_file, hp, if_true, hfs, Option.isSome_none,
      Bool.false_eq_true, if_false]

/-- C3 witness: the three outcomes at concrete filesystems — `foo.bb` only
under `/b` (hit after probing `/a`, both probes recorded), an empty
filesystem (NotFound naming the search list), and a missing absolute path
(NotFound naming that path). -/
theorem resolve_file_spec_witness :
    (resolve_file (fun q => if q = "/b/foo.bb" then some (1, 1, 1) else none)
        "/cwd" "/a:/b" [] ⟨[], []⟩ "foo.bb").1 = .ok "/b/foo.bb" ∧
    (resolve_file (fun q => if q = "/b/foo.bb" then some (1, 1, 1) else none)
        "/cwd" "/a:/b" [] ⟨[], []⟩ "foo.bb").2.2.depends
      = [("/a/foo.bb", MTime.absent), ("/b/foo.bb", MTime.fp (1, 1, 1))] ∧
    (resolve_file (fun _ => none) "/cwd" "/a:/b" [] ⟨[], []⟩ "foo.bb").1
      = .error (.enoent "file foo.bb not found in /a:/b") ∧
    (resolve_file (fun _ => none) "/cwd" "/a:/b" [] ⟨[], []⟩ "/abs.bb").1
      = .error (.enoent "file /abs.bb not found") := by
  have h1 := (resolve_file_spec (fun q => if q = "/b/foo.bb" then some (1, 1, 1) else none)
    "/cwd" [] ⟨[], []⟩ (1, 1, 1) "/abs.bb").1 (by decide) (by decide) rfl
  have h2 := resolve_file_spec (fun _ => none) "/cwd" [] ⟨[], []⟩ (1, 1, 1) "/abs.bb"
  exact ⟨h1.1, by decide, h2.2.1 rfl rfl, h2.2.2 rfl rfl⟩

end BBParse
